import Mathlib

/-!
Verification of the LiuAlgoTrader backtesting engine
(`liualgotrader/backtester.py` and `liualgotrader/analytics/analysis.py`).

Shallow-embedding conventions:
* virtual time is measured in whole minutes (`ℕ`);
* prices and decision quantities are `ℚ` (Python floats), positions are `ℤ`;
* a minute-bar series is a `List (ℕ × ℚ)` of (timestamp, close) pairs;
* plugin strategies and scanners are records of total functions; a strategy
  `run` that raises an exception is modelled as returning `.error ()`;
* the pandas `get_loc(..., method="nearest")` call used by the `BackTestDay`
  driver is the executable `nearestIdx`; the one inside the retry loop of
  `backtest_symbol` is an oracle argument (`alignO`), as is the HTTP data
  request (`fetch`), so the retry policy can be studied for every provider
  behaviour;
* database writes (`NewTrade.save`) are modelled by returning the trade
  records; the persisted timestamp, stop and target prices are not needed by
  any property studied here and are omitted from the record.
-/

namespace LiuAlgo

/-- Python `int(float(q))`: truncation toward zero. -/
def pyInt (q : ℚ) : ℤ := if 0 ≤ q then ⌊q⌋ else ⌈q⌉

/-- The `what` dictionary returned by `Strategy.run`: an order side and a
(float) quantity. -/
structure OrderDetails where
  side : String
  qty : ℚ
deriving Repr, DecidableEq

/-- Result of one `strategy.run(...)` call: `.error ()` models a raised
exception, `.ok (do, what)` a normal return. -/
abbrev RunResult := Except Unit (Bool × OrderDetails)

/-- The indicator snapshot attached to a persisted trade:
`trading_data.buy_indicators[symbol]`, `trading_data.sell_indicators[symbol]`,
or the `{"liquidate": 1}` sentinel. -/
inductive Indicators
  | buySnapshot
  | sellSnapshot
  | liquidation
deriving Repr, DecidableEq

/-- A `NewTrade` record as persisted by the engine. -/
structure Trade where
  algoRunId : Option ℕ
  symbol : String
  qty : ℤ
  operation : String
  price : ℚ
  indicators : Indicators
deriving Repr, DecidableEq

/-- `StrategyType`: only the day-trade distinction matters to the engine. -/
inductive StrategyType
  | dayTrade
  | swing
deriving Repr, DecidableEq

/-- A registered strategy: name, type, its `algo_run.run_id`, and its `run`
method (argument order: symbol, position, price history up to now, now,
portfolio value). -/
structure Strategy where
  name : String
  typ : StrategyType
  runId : ℕ
  run : String → ℤ → List (ℕ × ℚ) → ℕ → ℚ → RunResult

/-- The Python condition
`what["side"] == "buy" and float(qty) > 0 or what["side"] == "sell" and float(qty) < 0`. -/
def decisionMatchesSide (what : OrderDetails) : Bool :=
  (what.side == "buy" && decide (0 < what.qty)) ||
    (what.side == "sell" && decide (what.qty < 0))

/-- The acted-upon decision branch of `backtest_symbol`
(backtester.py lines 283-308): position update plus the persisted trade. -/
def actOnDecisionBS (runId : ℕ) (symbol : String) (price : ℚ) (position : ℤ)
    (what : OrderDetails) : ℤ × Trade :=
  (if decisionMatchesSide what then position + pyInt what.qty
   else position - pyInt what.qty,
   { algoRunId := some runId
     symbol := symbol
     qty := pyInt what.qty
     operation := what.side
     price := price
     indicators := if what.side == "buy" then .buySnapshot else .sellSnapshot })

/-- The acted-upon decision branch of `BackTestDay.next_minute`
(backtester.py lines 671-703); the source duplicates the
`backtest_symbol` logic verbatim. -/
def actOnDecisionNM (runId : ℕ) (symbol : String) (price : ℚ) (position : ℤ)
    (what : OrderDetails) : ℤ × Trade :=
  (if decisionMatchesSide what then position + pyInt what.qty
   else position - pyInt what.qty,
   { algoRunId := some runId
     symbol := symbol
     qty := pyInt what.qty
     operation := what.side
     price := price
     indicators := if what.side == "buy" then .buySnapshot else .sellSnapshot })

/-- Mutable per-symbol state threaded through the `backtest_symbol` strategy
loop: the local `position`, `trading_data.buy_time[symbol]`,
`trading_data.last_used_strategy[symbol].type` and the local `last_run_id`. -/
structure BSState where
  position : ℤ
  buyTime : Option ℕ
  lastUsedType : Option StrategyType
  lastRunId : Option ℕ
deriving Repr, DecidableEq

/-- The `for strategy in trading_data.strategies` loop of `backtest_symbol`
(lines 260-327) for one tick.  Returns the updated state, the trades saved
during the loop, and the number of strategies whose `run` was invoked.
An exception from `run` is caught per strategy (`continue`); a decision whose
side is `"buy"` or `"sell"` breaks out of the loop after the trade is saved
and the callback (a pure observability hook here) runs; any other side falls
through to the next strategy, and `last_run_id` is updated at the end of
every iteration that did not break or `continue`. -/
def pipelineBS (pv : ℚ) (symbol : String) (now : ℕ) (price : ℚ)
    (hist : List (ℕ × ℚ)) : BSState → List Strategy → BSState × List Trade × ℕ
  | s, [] => (s, [], 0)
  | s, st :: rest =>
    match st.run symbol s.position hist now pv with
    | .error _ =>
      let r := pipelineBS pv symbol now price hist s rest
      (r.1, r.2.1, r.2.2 + 1)
    | .ok (false, _) =>
      let r := pipelineBS pv symbol now price hist
        { s with lastRunId := some st.runId } rest
      (r.1, r.2.1, r.2.2 + 1)
    | .ok (true, what) =>
      let pt := actOnDecisionBS st.runId symbol price s.position what
      let s1 : BSState :=
        { s with
          position := pt.1
          buyTime := if decisionMatchesSide what then some now else s.buyTime
          lastUsedType := some st.typ }
      if what.side == "buy" then (s1, [pt.2], 1)
      else if what.side == "sell" then (s1, [pt.2], 1)
      else
        let r := pipelineBS pv symbol now price hist
          { s1 with lastRunId := some st.runId } rest
        (r.1, pt.2 :: r.2.1, r.2.2 + 1)

/-- Per-symbol state touched by the `next_minute` strategy loop:
`trading_data.positions[symbol]`, `trading_data.buy_time[symbol]` and
`trading_data.last_used_strategy[symbol].type`. -/
structure NMSymState where
  position : ℤ
  buyTime : Option ℕ
  lastUsedType : Option StrategyType
deriving Repr, DecidableEq

/-- Result of the `next_minute` strategy loop for one symbol: final state,
saved trades, `rc_msg` entries, number of `run` invocations, and whether the
loop was aborted by an uncaught strategy exception (which the caller catches
at the symbol level). -/
structure NMPipeOut where
  state : NMSymState
  trades : List Trade
  msgs : List String
  invoked : ℕ
  aborted : Bool
deriving Repr, DecidableEq

/-- Distance (in minutes) between bar `i` of `hist` and `now`. -/
def tsDist (hist : List (ℕ × ℚ)) (now i : ℕ) : ℕ :=
  (((hist.getD i (0, 0)).1 : ℤ) - (now : ℤ)).natAbs

/-- Executable model of `index.get_loc(now, method="nearest")`: the first
index of `hist` whose timestamp is closest to `now`; `none` when the lookup
raises (empty index). -/
def nearestIdx (hist : List (ℕ × ℚ)) (now : ℕ) : Option ℕ :=
  if hist.isEmpty then none
  else
    some ((List.range hist.length).foldl
      (fun best i => if tsDist hist now i < tsDist hist now best then i else best) 0)

/-- The `for strategy in trading_data.strategies` loop of
`BackTestDay.next_minute` (lines 643-721) for one symbol on one tick.
The nearest-index lookup runs inside the strategy loop; its failure prints
and `continue`s to the next strategy.  An exception from `strategy.run`
itself is NOT caught here: it propagates to the per-symbol handler, so the
loop stops with `aborted := true` (state changes made by earlier strategies
are kept, since `trading_data` is mutated in place). -/
def pipelineNM (pv : ℚ) (symbol : String) (now : ℕ) (hist : List (ℕ × ℚ)) :
    NMSymState → List Strategy → NMPipeOut
  | s, [] => ⟨s, [], [], 0, false⟩
  | s, st :: rest =>
    match nearestIdx hist now with
    | none => pipelineNM pv symbol now hist s rest
    | some idx =>
      let price := (hist.getD idx (0, 0)).2
      match st.run symbol s.position (hist.take (idx + 1)) now pv with
      | .error _ => ⟨s, [], [], 1, true⟩
      | .ok (false, _) =>
        let r := pipelineNM pv symbol now hist s rest
        { r with invoked := r.invoked + 1 }
      | .ok (true, what) =>
        let pt := actOnDecisionNM st.runId symbol price s.position what
        let s1 : NMSymState :=
          { position := pt.1
            buyTime := if decisionMatchesSide what then some now else s.buyTime
            lastUsedType := some st.typ }
        let msg := "[" ++ toString now ++ "][" ++ st.name ++ "] " ++
          what.side ++ " of " ++ symbol
        if what.side == "buy" then ⟨s1, [pt.2], [msg], 1, false⟩
        else if what.side == "sell" then ⟨s1, [pt.2], [msg], 1, false⟩
        else
          let r := pipelineNM pv symbol now hist s1 rest
          ⟨r.state, pt.2 :: r.trades, msg :: r.msgs, r.invoked + 1, r.aborted⟩

/-- The global `trading_data` maps, viewed per symbol.  `positions` is the
default-0 view of the dict (`if symbol not in positions: positions[symbol] = 0`). -/
structure TradingData where
  positions : String → ℤ
  buyTime : String → Option ℕ
  lastUsedType : String → Option StrategyType

/-- One iteration of the `for symbol in self.symbols` loop of `next_minute`:
run the strategy pipeline for `symbol` and write its state back. -/
def processSymbolNM (strats : List Strategy) (pv : ℚ) (now : ℕ)
    (mh : String → List (ℕ × ℚ)) (td : TradingData) (symbol : String) :
    TradingData × List String × List Trade :=
  let s0 : NMSymState := ⟨td.positions symbol, td.buyTime symbol, td.lastUsedType symbol⟩
  let r := pipelineNM pv symbol now (mh symbol) s0 strats
  (⟨fun x => if x = symbol then r.state.position else td.positions x,
    fun x => if x = symbol then r.state.buyTime else td.buyTime x,
    fun x => if x = symbol then r.state.lastUsedType else td.lastUsedType x⟩,
   r.msgs, r.trades)

/-- Accumulator of the symbol loop of `next_minute`. -/
structure SymAcc where
  td : TradingData
  msgs : List String
  trades : List Trade

/-- The full `for symbol in self.symbols` loop of `next_minute`: a symbol
whose pipeline aborted (strategy exception) does not stop the loop — the
handler prints and processing continues with the next symbol. -/
def symbolsStep (strats : List Strategy) (pv : ℚ) (now : ℕ)
    (mh : String → List (ℕ × ℚ)) (td : TradingData) (symbols : List String) :
    SymAcc :=
  symbols.foldl
    (fun acc symbol =>
      let r := processSymbolNM strats pv now mh acc.td symbol
      ⟨r.1, acc.msgs ++ r.2.1, acc.trades ++ r.2.2⟩)
    ⟨td, [], []⟩

/-- A scanner: its recurrence (constructed as `timedelta(minutes=r)`, so a
whole number of minutes, `none` when unset) and its `run` method. -/
structure Scanner where
  recurrence : Option ℕ
  run : ℕ → List String

/-- The scanner gate of `next_minute` (lines 608-614):
`self.now == self.start or (recurrence is not None and
recurrence.total_seconds() > 0 and elapsed_minutes % recurrence_minutes == 0)`,
expressed over `elapsed = now - start`. -/
def scannerShouldRun (elapsed : ℕ) (recurrence : Option ℕ) : Bool :=
  elapsed == 0 ||
    (match recurrence with
     | none => false
     | some r => decide (0 < r * 60) && (elapsed % r == 0))

/-- Accumulator of the scanner loop of `next_minute`. -/
structure ScanAcc where
  symbols : List String
  minuteHistory : String → List (ℕ × ℚ)
  msgs : List String

/-- The `for i in range(0, len(self.scanners))` loop of `next_minute`
(lines 607-639): gate each scanner, filter already-known symbols, and load
bar history (via the `getHist` oracle, standing for
`get_historical_data_from_poylgon_for_symbols`) for the really-new ones. -/
def scannersStep (getHist : String → List (ℕ × ℚ)) (start now : ℕ)
    (scanners : List Scanner) (acc0 : ScanAcc) : ScanAcc :=
  scanners.foldl
    (fun acc sc =>
      if scannerShouldRun (now - start) sc.recurrence then
        let newSymbols := sc.run now
        if newSymbols = [] then acc
        else
          let reallyNew := newSymbols.filter (fun x => !(acc.symbols.contains x))
          if 0 < reallyNew.length then
            ⟨acc.symbols ++ reallyNew,
             fun x => if reallyNew.contains x then getHist x else acc.minuteHistory x,
             acc.msgs ++
               ["Loaded data for " ++ toString reallyNew.length ++ " symbols"]⟩
          else acc
      else acc)
    acc0

/-- The state owned by a `BackTestDay`: session start/end, the virtual `now`
cursor, scanners, tracked symbols, per-symbol bar history, the `trading_data`
maps, the portfolio value and a log of every trade saved so far (the
view of the database). -/
structure DayState where
  start : ℕ
  endTime : ℕ
  now : ℕ
  scanners : List Scanner
  symbols : List String
  minuteHistory : String → List (ℕ × ℚ)
  td : TradingData
  portfolioValue : ℚ
  tradeLog : List Trade

/-- `BackTestDay.next_minute` (lines 604-730): when `now < end`, run the
scanner loop, then the symbol/strategy loop, advance the clock by exactly one
minute and return `(True, rc_msg)`; otherwise return `(False, [])` leaving
the state untouched. -/
def next_minute (strats : List Strategy) (getHist : String → List (ℕ × ℚ))
    (s : DayState) : Bool × List String × DayState :=
  if s.now < s.endTime then
    let sc := scannersStep getHist s.start s.now s.scanners
      ⟨s.symbols, s.minuteHistory, []⟩
    let sym := symbolsStep strats s.portfolioValue s.now sc.minuteHistory s.td sc.symbols
    (true, sc.msgs ++ sym.msgs,
     { s with
       symbols := sc.symbols
       minuteHistory := sc.minuteHistory
       td := sym.td
       tradeLog := s.tradeLog ++ sym.trades
       now := s.now + 1 })
  else (false, [], s)

/-- The close used by `BackTestDay.liquidate`: the bar of the history of `symbol`
nearest to `now` (the source calls `get_loc(self.now, method="nearest")`;
the empty-history fallback is unreachable for a tracked symbol). -/
def closeAtNearest (mh : String → List (ℕ × ℚ)) (now : ℕ) (symbol : String) : ℚ :=
  ((mh symbol).getD ((nearestIdx (mh symbol) now).getD 0) (0, 0)).2

/-- The body of `BackTestDay.liquidate` for one `positions` entry
(lines 734-755): a closing trade when the position is non-zero and the
last-used strategy has day-trade type, nothing otherwise.  `lastUsed` maps a
symbol to the type and `run_id` of `trading_data.last_used_strategy[symbol]`. -/
def liqTrade1 (mh : String → List (ℕ × ℚ)) (now : ℕ)
    (lastUsed : String → Option (StrategyType × ℕ)) (p : String × ℤ) :
    Option Trade :=
  if p.2 ≠ 0 ∧ (lastUsed p.1).map Prod.fst = some StrategyType.dayTrade then
    some
      { algoRunId := (lastUsed p.1).map Prod.snd
        symbol := p.1
        qty := if 0 < p.2 then p.2 else -p.2
        operation := if 0 < p.2 then "sell" else "buy"
        price := closeAtNearest mh now p.1
        indicators := .liquidation }
  else none

/-- `BackTestDay.liquidate` (lines 732-755): iterate the `positions` dict
(modelled as an association list with unique keys) and save one closing trade
per eligible symbol. -/
def liquidate (mh : String → List (ℕ × ℚ)) (now : ℕ)
    (lastUsed : String → Option (StrategyType × ℕ))
    (positions : List (String × ℤ)) : List Trade :=
  positions.filterMap (liqTrade1 mh now lastUsed)

/-- The end-of-replay liquidation of `backtest_symbol` (lines 332-349):
`if position:` and the day-trade check, then one closing trade priced at the
last processed close. -/
def bsLiquidation (symbol : String) (s : BSState) (price : ℚ) : List Trade :=
  if s.position ≠ 0 then
    if s.lastUsedType = some StrategyType.dayTrade then
      [{ algoRunId := s.lastRunId
         symbol := symbol
         qty := if 0 < s.position then s.position else -s.position
         operation := if 0 < s.position then "sell" else "buy"
         price := price
         indicators := .liquidation }]
    else []
  else []

/-- Following the words of the spec: the effect of a trade record on a position —
a buy adds its quantity, a sell removes its quantity.  Used to state that a
liquidation trade closes the position to exactly zero. -/
def specTradeEffect (t : Trade) : ℤ :=
  if t.operation = "buy" then t.qty else -t.qty

/-- Result of one `historic_agg_v2` request inside the retry loop of
`backtest_symbol`: an HTTP-layer fault or a bar series. -/
inductive FetchResult
  | httpError
  | ok (bars : List (ℕ × ℚ))
deriving Repr

/-- Outcome of the bar-loading retry loop of `backtest_symbol`. -/
inductive LoadOutcome
  | httpAborted
  | insufficientAborted
  | exhausted
  | loaded (bars : List (ℕ × ℚ)) (idx : ℕ)
deriving Repr, DecidableEq

/-- The `while re_try > 0` loop of `backtest_symbol` (lines 203-242), with
the remaining budget and the number of data requests made so far.  `fetch n`
is the n-th HTTP request; `alignO n bars` is the n-th
`get_loc(start_time, method="nearest")` call, `none` when it raises.  An
`HTTPError` returns at once (no retry); fewer than 100 bars returns at once;
an alignment failure decrements the budget and re-requests the full window. -/
def loadLoop (fetch : ℕ → FetchResult) (alignO : ℕ → List (ℕ × ℚ) → Option ℕ) :
    ℕ → ℕ → LoadOutcome × ℕ
  | 0, n => (.exhausted, n)
  | r + 1, n =>
    match fetch n with
    | .httpError => (.httpAborted, n + 1)
    | .ok bars =>
      if bars.length < 100 then (.insufficientAborted, n + 1)
      else
        match alignO n bars with
        | none => loadLoop fetch alignO r (n + 1)
        | some idx => (.loaded bars idx, n + 1)

/-- Bar loading for one symbol: `re_try = 3` attempts. -/
def loadBars (fetch : ℕ → FetchResult) (alignO : ℕ → List (ℕ × ℚ) → Option ℕ) :
    LoadOutcome × ℕ :=
  loadLoop fetch alignO 3 0

/-- The per-symbol replay `while` loop of `backtest_symbol` (lines 250-330),
carrying the loop variables `minute_index` and `new_now`.  At the head of
every iteration the bar actually read at the current index must carry the
timestamp of the cursor; a mismatch raises (`.error ()`).  Returns the final
state, the trades of all ticks, the last computed price and the final index. -/
def replayLoop (strats : List Strategy) (pv : ℚ) (marketClose : ℕ)
    (symbol : String) (bars : List (ℕ × ℚ)) (idx now : ℕ) (s : BSState)
    (price : ℚ) : Except Unit (BSState × List Trade × ℚ × ℕ) :=
  if h : now < marketClose ∧ idx + 1 < bars.length then
    if (bars.getD idx (0, 0)).1 ≠ now then .error ()
    else
      let price1 := (bars.getD idx (0, 0)).2
      let r := pipelineBS pv symbol now price1 (bars.take (idx + 1)) s strats
      match replayLoop strats pv marketClose symbol bars (idx + 1)
          ((bars.getD (idx + 1) (0, 0)).1) r.1 price1 with
      | .error e => .error e
      | .ok (s2, ts, p2, i2) => .ok (s2, r.2.1 ++ ts, p2, i2)
  else .ok (s, [], price, idx)
termination_by bars.length - idx
decreasing_by simp_wf; omega

/-- The replay-and-liquidate half of `backtest_symbol` (lines 244-349),
entered with the aligned `minute_index`; the cursor is initialised from the
indexed bar (line 245) and the initial price is `0.0` (line 247). -/
def backtestSymbolReplay (strats : List Strategy) (pv : ℚ) (marketClose : ℕ)
    (symbol : String) (bars : List (ℕ × ℚ)) (idx : ℕ) :
    Except Unit (ℤ × List Trade) :=
  match replayLoop strats pv marketClose symbol bars idx
      ((bars.getD idx (0, 0)).1) ⟨0, none, none, none⟩ 0 with
  | .error e => .error e
  | .ok (s, ts, price, _) => .ok (s.position, ts ++ bsLiquidation symbol s price)

/-- Inputs of one `backtest_symbol` call: the symbol, its scanner pick time
(minutes relative to the session start used in the too-late check, line 188)
and the data-layer oracles. -/
structure SymSpec where
  symbol : String
  scannerStart : ℕ
  fetch : ℕ → FetchResult
  alignO : ℕ → List (ℕ × ℚ) → Option ℕ

/-- The observable outcome of one `backtest_symbol` call. -/
inductive BSOutcome
  | pickedTooLate
  | httpAborted
  | insufficientAborted
  | retryExhausted
  | finished (position : ℤ) (trades : List Trade)
deriving Repr, DecidableEq

/-- `backtest_symbol` (lines 171-349): the too-late check, the bar-loading
retry loop, then replay and liquidation.  Every early return is a normal
(`.ok`) outcome; only the replay invariant violation raises. -/
def backtestSymbolE (strats : List Strategy) (pv : ℚ) (marketClose : ℕ)
    (startTime duration : ℕ) (sp : SymSpec) : Except Unit BSOutcome :=
  if startTime + duration < sp.scannerStart then .ok .pickedTooLate
  else
    match loadBars sp.fetch sp.alignO with
    | (.httpAborted, _) => .ok .httpAborted
    | (.insufficientAborted, _) => .ok .insufficientAborted
    | (.exhausted, _) => .ok .retryExhausted
    | (.loaded bars idx, _) =>
      match backtestSymbolReplay strats pv marketClose sp.symbol bars idx with
      | .error e => .error e
      | .ok (pos, ts) => .ok (.finished pos ts)

/-- The `for symbol_and_start_time in symbols_and_start_time` loop of
`backtest_run` (lines 420-430): `backtest_symbol` is awaited with no handler,
so an exception from any symbol propagates and stops the loop. -/
def backtestRunLoop (strats : List Strategy) (pv : ℚ) (marketClose : ℕ)
    (startTime duration : ℕ) : List SymSpec → Except Unit (List BSOutcome)
  | [] => .ok []
  | sp :: rest =>
    match backtestSymbolE strats pv marketClose startTime duration sp with
    | .error e => .error e
    | .ok o =>
      match backtestRunLoop strats pv marketClose startTime duration rest with
      | .error e => .error e
      | .ok os => .ok (o :: os)

/-- The `backtest` entry point (lines 352-481): the worker runs inside
`try/except KeyboardInterrupt/except Exception/finally`, and the `finally`
block always returns the freshly generated batch id `uid`.  `interrupted`
models an external KeyboardInterrupt; the second component is the worker
outcome when it ran to completion. -/
def backtestEntry (uid : String) (strats : List Strategy) (pv : ℚ)
    (marketClose startTime duration : ℕ) (specs : List SymSpec)
    (interrupted : Bool) : String × Option (List BSOutcome) :=
  if interrupted then (uid, none)
  else
    match backtestRunLoop strats pv marketClose startTime duration specs with
    | .error _ => (uid, none)
    | .ok os => (uid, some os)

/-- A row of the trades table joined with `algo_run`, as consumed by
`calc_batch_revenue`. -/
structure TradeRow where
  symbol : String
  batch_id : String
  operation : String
  price : ℚ
  qty : ℤ
deriving Repr, DecidableEq

/-- Python rounding (half to even) of a rational to the nearest integer. -/
def roundHalfEven (q : ℚ) : ℤ :=
  if q - ⌊q⌋ < 1 / 2 then ⌊q⌋
  else if 1 / 2 < q - ⌊q⌋ then ⌊q⌋ + 1
  else if ⌊q⌋ % 2 = 0 then ⌊q⌋ else ⌊q⌋ + 1

/-- Python `round(x, 2)`. -/
def pyRound2 (q : ℚ) : ℚ := (roundHalfEven (q * 100) : ℚ) / 100

/-- `calc_batch_revenue` (analysis.py lines 96-109): over the rows matching
the symbol and batch id, sum `price * qty * (1 if operation == "sell" and
qty > 0 else -1)` and round to 2 decimal places. -/
def calc_batch_revenue (symbol : String) (trades : List TradeRow)
    (batch_id : String) : ℚ :=
  pyRound2
    ((trades.filter (fun r => r.symbol == symbol && r.batch_id == batch_id)).foldl
      (fun rc row =>
        rc + row.price * (row.qty : ℚ) *
          (if row.operation == "sell" && decide (0 < row.qty) then 1 else -1))
      0)

/-- Following the words of the claim: the contribution of one matching row to the
batch revenue. -/
def specContribution (row : TradeRow) : ℚ :=
  row.price * (row.qty : ℚ) *
    (if row.operation = "sell" ∧ 0 < row.qty then 1 else -1)

/-- The Boolean side/sign gate agrees with its propositional reading. -/
theorem decisionMatchesSide_iff (what : OrderDetails) :
    decisionMatchesSide what = true ↔
      (what.side = "buy" ∧ 0 < what.qty) ∨ (what.side = "sell" ∧ what.qty < 0) := by
  unfold decisionMatchesSide
  simp [Bool.or_eq_true, Bool.and_eq_true, beq_iff_eq, decide_eq_true_eq]

/-- Claim C1: for every strategy decision acted upon (`do = true`), a "buy"
with positive quantity or a "sell" with negative quantity adds the signed
quantity (truncated to an integer, as `int(float(qty))`) to the position;
every other side/sign combination subtracts it instead; and in every case a
trade record carrying the side of the decision and quantity is emitted — the
decision is never rejected.  This covers the acted-upon branch of both
drivers, `backtest_symbol` and `BackTestDay.next_minute`. -/
theorem c1_position_update (runId : ℕ) (symbol : String) (price : ℚ)
    (pos : ℤ) (what : OrderDetails) :
    (((what.side = "buy" ∧ 0 < what.qty) ∨ (what.side = "sell" ∧ what.qty < 0)) →
      (actOnDecisionBS runId symbol price pos what).1 = pos + pyInt what.qty ∧
      (actOnDecisionNM runId symbol price pos what).1 = pos + pyInt what.qty) ∧
    (¬ ((what.side = "buy" ∧ 0 < what.qty) ∨ (what.side = "sell" ∧ what.qty < 0)) →
      (actOnDecisionBS runId symbol price pos what).1 = pos - pyInt what.qty ∧
      (actOnDecisionNM runId symbol price pos what).1 = pos - pyInt what.qty) ∧
    ((actOnDecisionBS runId symbol price pos what).2.operation = what.side ∧
     (actOnDecisionBS runId symbol price pos what).2.qty = pyInt what.qty ∧
     (actOnDecisionNM runId symbol price pos what).2.operation = what.side ∧
     (actOnDecisionNM runId symbol price pos what).2.qty = pyInt what.qty) := by
  refine ⟨fun h => ?_, fun h => ?_, rfl, rfl, rfl, rfl⟩
  · have hb : decisionMatchesSide what = true := (decisionMatchesSide_iff what).mpr h
    constructor <;> simp [actOnDecisionBS, actOnDecisionNM, hb]
  · have hb : decisionMatchesSide what = false := by
      cases hbb : decisionMatchesSide what
      · rfl
      · exact absurd ((decisionMatchesSide_iff what).mp hbb) h
    constructor <;> simp [actOnDecisionBS, actOnDecisionNM, hb]

/-- Witness for C1: a matched buy adds the quantity, a mismatched side
subtracts it. -/
theorem c1_position_update_witness :
    (actOnDecisionBS 1 "A" 10 0 ⟨"buy", 3⟩).1 = 0 + pyInt 3 ∧
    (actOnDecisionNM 1 "A" 10 0 ⟨"hold", 3⟩).1 = 0 - pyInt 3 :=
  ⟨((c1_position_update 1 "A" 10 0 ⟨"buy", 3⟩).1 (Or.inl ⟨rfl, by decide⟩)).1,
   ((c1_position_update 1 "A" 10 0 ⟨"hold", 3⟩).2.1 (by decide)).2⟩

/-- Claim C5: every scanner runs at session start unconditionally; at a later
tick it runs exactly when its recurrence is a positive number of minutes
dividing the elapsed minutes since session start; a scanner with no
recurrence runs exactly at tick 0. -/
theorem c5_scanner_recurrence (rec : Option ℕ) :
    scannerShouldRun 0 rec = true ∧
    (∀ e : ℕ, 0 < e →
      (scannerShouldRun e rec = true ↔ ∃ r, rec = some r ∧ 0 < r ∧ e % r = 0)) ∧
    (rec = none → ∀ e : ℕ, scannerShouldRun e rec = true ↔ e = 0) := by
  refine ⟨?_, ?_, ?_⟩
  · simp [scannerShouldRun]
  · intro e he
    have hne : e ≠ 0 := Nat.pos_iff_ne_zero.mp he
    cases rec with
    | none => simp [scannerShouldRun, hne]
    | some r =>
      have h60 : 0 < r * 60 ↔ 0 < r := by omega
      simp [scannerShouldRun, hne, h60]
  · rintro rfl e
    simp [scannerShouldRun]

/-- Witness for C5: a 15-minute scanner fires at elapsed 30; a no-recurrence
scanner does not fire at elapsed 7. -/
theorem c5_scanner_recurrence_witness :
    scannerShouldRun 30 (some 15) = true ∧ scannerShouldRun 7 none = false :=
  ⟨((c5_scanner_recurrence (some 15)).2.1 30 (by decide)).mpr
      ⟨15, rfl, by decide, by decide⟩,
   by simpa using ((c5_scanner_recurrence none).2.2 rfl 7)⟩

/-- Claim C2 (amended): evaluation short-circuits at the first actionable
decision whose side is "buy" or "sell" — with such a decision at the head of
the remaining pipeline the strategies after it are never invoked and the
result does not depend on them, in both drivers.  (An actionable decision
with any other side value records its trade and falls through to the next
strategy, see the counterexample.) -/
theorem c2_short_circuit (pv : ℚ) (symbol : String) (now : ℕ) (price : ℚ)
    (hist : List (ℕ × ℚ)) (s : BSState) (s2 : NMSymState) (st : Strategy)
    (rest : List Strategy) (what : OrderDetails) (idx : ℕ) :
    (st.run symbol s.position hist now pv = .ok (true, what) →
      (what.side = "buy" ∨ what.side = "sell") →
      pipelineBS pv symbol now price hist s (st :: rest) =
        pipelineBS pv symbol now price hist s [st] ∧
      (pipelineBS pv symbol now price hist s (st :: rest)).2.2 = 1) ∧
    (nearestIdx hist now = some idx →
      st.run symbol s2.position (hist.take (idx + 1)) now pv = .ok (true, what) →
      (what.side = "buy" ∨ what.side = "sell") →
      pipelineNM pv symbol now hist s2 (st :: rest) =
        pipelineNM pv symbol now hist s2 [st] ∧
      (pipelineNM pv symbol now hist s2 (st :: rest)).invoked = 1) := by
  constructor
  · intro hrun hside
    rcases hside with h | h <;> constructor <;> simp [pipelineBS, hrun, h]
  · intro hidx hrun hside
    rcases hside with h | h <;> constructor <;> simp [pipelineNM, hidx, hrun, h]

/-- Witness for the amended C2: a buy decision at the head of the pipeline
short-circuits the strategy after it. -/
theorem c2_short_circuit_witness :
    pipelineBS 100 "A" 0 1 [(0, 1)] ⟨0, none, none, none⟩
      [⟨"b", .dayTrade, 1, fun _ _ _ _ _ => .ok (true, ⟨"buy", 1⟩)⟩,
       ⟨"p", .dayTrade, 2, fun _ _ _ _ _ => .ok (false, ⟨"buy", 0⟩)⟩] =
    pipelineBS 100 "A" 0 1 [(0, 1)] ⟨0, none, none, none⟩
      [⟨"b", .dayTrade, 1, fun _ _ _ _ _ => .ok (true, ⟨"buy", 1⟩)⟩] :=
  ((c2_short_circuit 100 "A" 0 1 [(0, 1)] ⟨0, none, none, none⟩ ⟨0, none, none⟩
      ⟨"b", .dayTrade, 1, fun _ _ _ _ _ => .ok (true, ⟨"buy", 1⟩)⟩
      [⟨"p", .dayTrade, 2, fun _ _ _ _ _ => .ok (false, ⟨"buy", 0⟩)⟩]
      ⟨"buy", 1⟩ 0).1 rfl (Or.inl rfl)).1

/-- Counterexample to C2 as stated: a pipeline whose first strategy returns
an actionable decision (`do = true`) with side "hold" does not short-circuit —
the second strategy is still invoked (2 `run` invocations on the tick). -/
theorem c2_counterexample :
    (⟨"h", .dayTrade, 1, fun _ _ _ _ _ => .ok (true, ⟨"hold", 1⟩)⟩ :
        Strategy).run "A" 0 [(0, 1)] 0 100 = .ok (true, ⟨"hold", 1⟩) ∧
    (pipelineBS 100 "A" 0 1 [(0, 1)] ⟨0, none, none, none⟩
      [⟨"h", .dayTrade, 1, fun _ _ _ _ _ => .ok (true, ⟨"hold", 1⟩)⟩,
       ⟨"p", .dayTrade, 2, fun _ _ _ _ _ => .ok (false, ⟨"buy", 0⟩)⟩]).2.2 = 2 :=
  ⟨rfl, rfl⟩

/-- Claim C3 (amended): in `backtest_symbol` an exception from a strategy
`run` is caught per strategy and the pipeline proceeds with the next
strategy, state and trades unchanged; in `BackTestDay.next_minute` the
exception is caught one level up, at the symbol loop, so the remaining
strategies for that symbol on that tick are skipped (the session then
continues with the next symbol). -/
theorem c3_fault_isolation (pv : ℚ) (symbol : String) (now : ℕ) (price : ℚ)
    (hist : List (ℕ × ℚ)) (s : BSState) (s2 : NMSymState) (st : Strategy)
    (rest : List Strategy) (idx : ℕ) :
    (st.run symbol s.position hist now pv = .error () →
      pipelineBS pv symbol now price hist s (st :: rest) =
        ((pipelineBS pv symbol now price hist s rest).1,
         (pipelineBS pv symbol now price hist s rest).2.1,
         (pipelineBS pv symbol now price hist s rest).2.2 + 1)) ∧
    (nearestIdx hist now = some idx →
      st.run symbol s2.position (hist.take (idx + 1)) now pv = .error () →
      pipelineNM pv symbol now hist s2 (st :: rest) = ⟨s2, [], [], 1, true⟩) := by
  constructor
  · intro hrun
    simp [pipelineBS, hrun]
  · intro hidx hrun
    simp [pipelineNM, hidx, hrun]

/-- Witness for the amended C3 at concrete inputs. -/
theorem c3_fault_isolation_witness :
    pipelineBS 100 "A" 0 1 [(0, 1)] ⟨0, none, none, none⟩
      [⟨"e", .dayTrade, 1, fun _ _ _ _ _ => .error ()⟩] =
      ((pipelineBS 100 "A" 0 1 [(0, 1)] ⟨0, none, none, none⟩ []).1,
       (pipelineBS 100 "A" 0 1 [(0, 1)] ⟨0, none, none, none⟩ []).2.1,
       (pipelineBS 100 "A" 0 1 [(0, 1)] ⟨0, none, none, none⟩ []).2.2 + 1) ∧
    pipelineNM 100 "A" 0 [(0, 1)] ⟨0, none, none⟩
      [⟨"e", .dayTrade, 1, fun _ _ _ _ _ => .error ()⟩,
       ⟨"b", .dayTrade, 2, fun _ _ _ _ _ => .ok (true, ⟨"buy", 1⟩)⟩] =
      ⟨⟨0, none, none⟩, [], [], 1, true⟩ :=
  ⟨(c3_fault_isolation 100 "A" 0 1 [(0, 1)] ⟨0, none, none, none⟩ ⟨0, none, none⟩
      ⟨"e", .dayTrade, 1, fun _ _ _ _ _ => .error ()⟩ [] 0).1 rfl,
   (c3_fault_isolation 100 "A" 0 1 [(0, 1)] ⟨0, none, none, none⟩ ⟨0, none, none⟩
      ⟨"e", .dayTrade, 1, fun _ _ _ _ _ => .error ()⟩
      [⟨"b", .dayTrade, 2, fun _ _ _ _ _ => .ok (true, ⟨"buy", 1⟩)⟩] 0).2 rfl rfl⟩

/-- Counterexample to C3 as stated: in the `next_minute` driver a strategy
exception does not hand over to the next strategy of the pipeline — with an
erroring first strategy only one strategy is invoked on the tick. -/
theorem c3_counterexample :
    (⟨"e", .dayTrade, 1, fun _ _ _ _ _ => .error ()⟩ :
        Strategy).run "A" 0 [(0, 1)] 0 100 = .error () ∧
    (pipelineNM 100 "A" 0 [(0, 1)] ⟨0, none, none⟩
      [⟨"e", .dayTrade, 1, fun _ _ _ _ _ => .error ()⟩,
       ⟨"b", .dayTrade, 2, fun _ _ _ _ _ => .ok (true, ⟨"buy", 1⟩)⟩]).invoked = 1 :=
  ⟨rfl, rfl⟩

/-- Claim C9: the `backtest` entry point returns the freshly generated batch
id for every outcome of the run — normal completion, keyboard interrupt, or
an exception raised during the run. -/
theorem c9_batch_id (uid : String) (strats : List Strategy) (pv : ℚ)
    (mc st dur : ℕ) (specs : List SymSpec) (interrupted : Bool) :
    (backtestEntry uid strats pv mc st dur specs interrupted).1 = uid := by
  unfold backtestEntry
  cases interrupted with
  | true => rfl
  | false => cases h : backtestRunLoop strats pv mc st dur specs <;> simp [h]

/-- The retry loop makes at most `n + r` data requests when entered with
budget `r` after `n` requests. -/
theorem loadLoop_attempts_le (fetch : ℕ → FetchResult)
    (alignO : ℕ → List (ℕ × ℚ) → Option ℕ) :
    ∀ r n : ℕ, (loadLoop fetch alignO r n).2 ≤ n + r := by
  intro r
  induction r with
  | zero => intro n; simp [loadLoop]
  | succ k ih =>
    intro n
    unfold loadLoop
    cases hf : fetch n with
    | httpError => simp
    | ok bars =>
      by_cases hl : bars.length < 100
      · simp [hl]
      · cases ha : alignO n bars with
        | none =>
          simp only [hl, if_false, ha]
          exact le_trans (ih (n + 1)) (by omega)
        | some idx => simp [hl, ha]

/-- With data always available and an always-failing alignment lookup, the
retry loop consumes its whole budget and reports exhaustion. -/
theorem loadLoop_exhaust (fetch : ℕ → FetchResult)
    (alignO : ℕ → List (ℕ × ℚ) → Option ℕ)
    (hf : ∀ n, ∃ bars, fetch n = FetchResult.ok bars ∧ 100 ≤ bars.length)
    (ha : ∀ n bars, alignO n bars = none) :
    ∀ r n : ℕ, loadLoop fetch alignO r n = (.exhausted, n + r) := by
  intro r
  induction r with
  | zero => intro n; simp [loadLoop]
  | succ k ih =>
    intro n
    obtain ⟨bars, hb, hlen⟩ := hf n
    simp only [loadLoop, hb, ha]
    rw [if_neg (by omega)]
    rw [ih (n + 1)]
    have harith : n + 1 + k = n + (k + 1) := by omega
    rw [harith]

/-- A liquidation trade carries the symbol of the positions entry that
produced it. -/
theorem liqTrade1_symbol (mh : String → List (ℕ × ℚ)) (now : ℕ)
    (lastUsed : String → Option (StrategyType × ℕ)) (p : String × ℤ)
    (t : Trade) (h : liqTrade1 mh now lastUsed p = some t) : t.symbol = p.1 := by
  unfold liqTrade1 at h
  split at h
  · cases h; rfl
  · cases h

/-- Entries whose key differs from `sym` contribute no liquidation trade
counted for `sym`. -/
theorem liq_countP_zero (mh : String → List (ℕ × ℚ)) (now : ℕ)
    (lastUsed : String → Option (StrategyType × ℕ)) (sym : String) :
    ∀ l : List (String × ℤ), (∀ q ∈ l, q.1 ≠ sym) →
      (liquidate mh now lastUsed l).countP (fun t => t.symbol == sym) = 0 := by
  intro l
  induction l with
  | nil => intro _; rfl
  | cons q rest ih =>
    intro hall
    unfold liquidate at ih ⊢
    rw [List.filterMap_cons]
    cases hq : liqTrade1 mh now lastUsed q with
    | none => exact ih fun x hx => hall x (List.mem_cons_of_mem q hx)
    | some t =>
      have hts : t.symbol = q.1 := liqTrade1_symbol mh now lastUsed q t hq
      have hb : (t.symbol == sym) = false := by
        rw [hts]
        exact beq_eq_false_iff_ne.mpr (hall q (List.mem_cons_self q rest))
      simp only [List.countP_cons, hb, if_false]
      simpa using ih fun x hx => hall x (List.mem_cons_of_mem q hx)

/-- Association-list entries with equal keys are equal when the key list has
no duplicates. -/
theorem nodup_key_eq : ∀ (l : List (String × ℤ)) (p q : String × ℤ),
    (l.map Prod.fst).Nodup → p ∈ l → q ∈ l → p.1 = q.1 → p = q := by
  intro l
  induction l with
  | nil => intro p q _ hp; cases hp
  | cons a rest ih =>
    intro p q hnd hp hq hpq
    rw [List.map_cons, List.nodup_cons] at hnd
    rcases List.mem_cons.mp hp with rfl | hp2
    · rcases List.mem_cons.mp hq with rfl | hq2
      · rfl
      · exact absurd (by rw [hpq]; exact List.mem_map_of_mem Prod.fst hq2) hnd.1
    · rcases List.mem_cons.mp hq with rfl | hq2
      · exact absurd (by rw [← hpq]; exact List.mem_map_of_mem Prod.fst hp2) hnd.1
      · exact ih p q hnd.2 hp2 hq2 hpq

/-- One dict entry produces one liquidation trade exactly when it is
eligible (non-zero position under a day-trade strategy). -/
theorem liq_countP_eq (mh : String → List (ℕ × ℚ)) (now : ℕ)
    (lastUsed : String → Option (StrategyType × ℕ)) :
    ∀ (l : List (String × ℤ)) (p : String × ℤ), (l.map Prod.fst).Nodup →
      p ∈ l →
      (liquidate mh now lastUsed l).countP (fun t => t.symbol == p.1) =
        if p.2 ≠ 0 ∧ (lastUsed p.1).map Prod.fst = some StrategyType.dayTrade
        then 1 else 0 := by
  intro l
  induction l with
  | nil => intro p _ hp; cases hp
  | cons a rest ih =>
    intro p hnd hp
    rw [List.map_cons, List.nodup_cons] at hnd
    rcases List.mem_cons.mp hp with rfl | hp2
    · have hrest : (liquidate mh now lastUsed rest).countP
          (fun t => t.symbol == p.1) = 0 := by
        apply liq_countP_zero
        intro q hq hqe
        exact hnd.1 (by rw [← hqe]; exact List.mem_map_of_mem Prod.fst hq)
      unfold liquidate at hrest ⊢
      by_cases he : p.2 ≠ 0 ∧
          (lastUsed p.1).map Prod.fst = some StrategyType.dayTrade
      · rw [if_pos he]
        have hliq : liqTrade1 mh now lastUsed p = some
            { algoRunId := (lastUsed p.1).map Prod.snd
              symbol := p.1
              qty := if 0 < p.2 then p.2 else -p.2
              operation := if 0 < p.2 then "sell" else "buy"
              price := closeAtNearest mh now p.1
              indicators := .liquidation } := by
          unfold liqTrade1
          rw [if_pos he]
        simp only [List.filterMap_cons, hliq]
        simp [List.countP_cons, hrest]
      · rw [if_neg he]
        have hliq : liqTrade1 mh now lastUsed p = none := by
          unfold liqTrade1
          rw [if_neg he]
        simp only [List.filterMap_cons, hliq]
        exact hrest
    · have hne : a.1 ≠ p.1 := by
        intro he
        exact hnd.1 (by rw [he]; exact List.mem_map_of_mem Prod.fst hp2)
      have hr := ih p hnd.2 hp2
      unfold liquidate at hr ⊢
      simp only [List.filterMap_cons]
      cases hq : liqTrade1 mh now lastUsed a with
      | none => exact hr
      | some t =>
        have hts : t.symbol = a.1 := liqTrade1_symbol mh now lastUsed a t hq
        have hb : (t.symbol == p.1) = false := by
          rw [hts]
          exact beq_eq_false_iff_ne.mpr hne
        simp only [List.countP_cons, hb, if_false]
        simpa using hr

/-- Claim C4: at session end, every positions entry with non-zero position
whose last-used strategy has day-trade type yields exactly one liquidation
trade — quantity the absolute position, side "sell" for a long and "buy" for
a short, price the close of the bar nearest the session-end cursor, and the
liquidation-sentinel indicator — and that trade closes the position to
exactly zero; entries with zero position or a non-day-trade strategy yield
no liquidation trade.  The analogous facts hold for the liquidation tail of
`backtest_symbol`, priced at the last processed close. -/
theorem c4_liquidation :
    (∀ (mh : String → List (ℕ × ℚ)) (now : ℕ)
        (lastUsed : String → Option (StrategyType × ℕ))
        (positions : List (String × ℤ)),
      (positions.map Prod.fst).Nodup →
      ∀ p ∈ positions,
        ((p.2 ≠ 0 ∧ (lastUsed p.1).map Prod.fst = some StrategyType.dayTrade) →
          (liquidate mh now lastUsed positions).countP
            (fun t => t.symbol == p.1) = 1 ∧
          ∀ t ∈ liquidate mh now lastUsed positions, t.symbol = p.1 →
            t.qty = (p.2.natAbs : ℤ) ∧
            t.operation = (if 0 < p.2 then "sell" else "buy") ∧
            t.price = closeAtNearest mh now p.1 ∧
            t.indicators = Indicators.liquidation ∧
            p.2 + specTradeEffect t = 0) ∧
        (¬ (p.2 ≠ 0 ∧ (lastUsed p.1).map Prod.fst = some StrategyType.dayTrade) →
          (liquidate mh now lastUsed positions).countP
            (fun t => t.symbol == p.1) = 0)) ∧
    (∀ (symbol : String) (s : BSState) (price : ℚ),
      ((s.position ≠ 0 ∧ s.lastUsedType = some StrategyType.dayTrade) →
        bsLiquidation symbol s price =
          [{ algoRunId := s.lastRunId
             symbol := symbol
             qty := (s.position.natAbs : ℤ)
             operation := if 0 < s.position then "sell" else "buy"
             price := price
             indicators := Indicators.liquidation }] ∧
        ∀ t ∈ bsLiquidation symbol s price, s.position + specTradeEffect t = 0) ∧
      (¬ (s.position ≠ 0 ∧ s.lastUsedType = some StrategyType.dayTrade) →
        bsLiquidation symbol s price = [])) := by
  constructor
  · intro mh now lastUsed positions hnd p hp
    constructor
    · intro he
      constructor
      · rw [liq_countP_eq mh now lastUsed positions p hnd hp, if_pos he]
      · intro t ht hts
        obtain ⟨q, hq, hqt⟩ := List.mem_filterMap.mp ht
        have hqs : t.symbol = q.1 := liqTrade1_symbol mh now lastUsed q t hqt
        have hkey : p.1 = q.1 := by rw [← hts]; exact hqs
        have hpq : p = q := nodup_key_eq positions p q hnd hp hq hkey
        subst hpq
        unfold liqTrade1 at hqt
        rw [if_pos he] at hqt
        cases hqt
        refine ⟨?_, rfl, rfl, rfl, ?_⟩
        · have h0 := he.1
          show (if 0 < p.2 then p.2 else -p.2) = (p.2.natAbs : ℤ)
          split <;> omega
        · unfold specTradeEffect
          by_cases hpos : 0 < p.2
          · simp only [if_pos hpos]
            rw [if_neg (by decide)]
            omega
          · simp only [if_neg hpos]
            simp only [if_true]
            omega
    · intro he
      rw [liq_countP_eq mh now lastUsed positions p hnd hp, if_neg he]
  · intro symbol s price
    constructor
    · intro he
      constructor
      · unfold bsLiquidation
        rw [if_pos he.1, if_pos he.2]
        have hq : (if 0 < s.position then s.position else -s.position) =
            (s.position.natAbs : ℤ) := by
          have h0 := he.1
          split <;> omega
        rw [hq]
      · intro t ht
        unfold bsLiquidation at ht
        rw [if_pos he.1, if_pos he.2] at ht
        rw [List.mem_singleton] at ht
        subst ht
        unfold specTradeEffect
        by_cases hpos : 0 < s.position
        · simp only [if_pos hpos]
          rw [if_neg (by decide)]
          omega
        · simp only [if_neg hpos]
          simp only [if_true]
          omega
    · intro he
      unfold bsLiquidation
      by_cases h0 : s.position ≠ 0
      · rw [if_pos h0, if_neg (fun hd => he ⟨h0, hd⟩)]
      · rw [if_neg h0]

/-- Witness for C4 on a concrete one-entry store holding a long position
under a day-trade strategy. -/
theorem c4_liquidation_witness :
    (liquidate (fun _ => [(0, 3)]) 0 (fun _ => some (StrategyType.dayTrade, 7))
      [("A", 5)]).countP (fun t => t.symbol == "A") = 1 ∧
    bsLiquidation "A" ⟨5, none, some StrategyType.dayTrade, some 7⟩ 3 =
      [{ algoRunId := some 7
         symbol := "A"
         qty := ((5 : ℤ).natAbs : ℤ)
         operation := if (0 : ℤ) < 5 then "sell" else "buy"
         price := 3
         indicators := Indicators.liquidation }] :=
  ⟨((c4_liquidation.1 (fun _ => [(0, 3)]) 0
      (fun _ => some (StrategyType.dayTrade, 7)) [("A", 5)] (by decide)
      ("A", 5) (by decide)).1 (by decide)).1,
   ((c4_liquidation.2 "A" ⟨5, none, some StrategyType.dayTrade, some 7⟩ 3).1
      (by decide)).1⟩

/-- Claim C6: bar loading makes at most 3 data requests in total; with
sufficient data and an always-failing alignment lookup it makes exactly 3
and reports exhaustion; an HTTP-layer fault ends the loop at once, with no
retry and no further attempt; an exhausted symbol is skipped with a normal
(non-exception) outcome and the run loop continues with the remaining
symbols. -/
theorem c6_retry_policy :
    (∀ (fetch : ℕ → FetchResult) (alignO : ℕ → List (ℕ × ℚ) → Option ℕ),
      (loadBars fetch alignO).2 ≤ 3) ∧
    (∀ (fetch : ℕ → FetchResult) (alignO : ℕ → List (ℕ × ℚ) → Option ℕ),
      (∀ n, ∃ bars, fetch n = FetchResult.ok bars ∧ 100 ≤ bars.length) →
      (∀ n bars, alignO n bars = none) →
      loadBars fetch alignO = (.exhausted, 3)) ∧
    (∀ (fetch : ℕ → FetchResult) (alignO : ℕ → List (ℕ × ℚ) → Option ℕ)
        (r n : ℕ), fetch n = FetchResult.httpError →
      loadLoop fetch alignO (r + 1) n = (.httpAborted, n + 1)) ∧
    (∀ (strats : List Strategy) (pv : ℚ) (mc st dur : ℕ) (sp : SymSpec),
      ¬ st + dur < sp.scannerStart →
      loadBars sp.fetch sp.alignO = (.exhausted, 3) →
      backtestSymbolE strats pv mc st dur sp = .ok .retryExhausted) ∧
    (∀ (strats : List Strategy) (pv : ℚ) (mc st dur : ℕ) (sp : SymSpec)
        (rest : List SymSpec) (os : List BSOutcome),
      backtestSymbolE strats pv mc st dur sp = .ok .retryExhausted →
      backtestRunLoop strats pv mc st dur rest = .ok os →
      backtestRunLoop strats pv mc st dur (sp :: rest) =
        .ok (.retryExhausted :: os)) := by
  refine ⟨?_, ?_, ?_, ?_, ?_⟩
  · intro fetch alignO
    exact loadLoop_attempts_le fetch alignO 3 0
  · intro fetch alignO hf ha
    simpa [loadBars] using loadLoop_exhaust fetch alignO hf ha 3 0
  · intro fetch alignO r n hf
    unfold loadLoop
    rw [hf]
  · intro strats pv mc st dur sp h1 h2
    unfold backtestSymbolE
    rw [if_neg h1, h2]
  · intro strats pv mc st dur sp rest os hsp hrest
    unfold backtestRunLoop
    rw [hsp, hrest]

/-- Witness for C6: a provider with plenty of data whose alignment lookup
always fails exhausts exactly 3 attempts; an immediate HTTP fault stops the
loop after the single request; the run loop still yields an outcome list for
a symbol whose retries were exhausted. -/
theorem c6_retry_policy_witness :
    loadBars (fun _ => FetchResult.ok (List.replicate 100 (0, 1)))
      (fun _ _ => none) = (.exhausted, 3) ∧
    loadLoop (fun _ => FetchResult.httpError) (fun _ _ => none) 3 0 =
      (.httpAborted, 1) ∧
    backtestRunLoop [] 100 390 0 390
      [⟨"A", 0, fun _ => FetchResult.ok (List.replicate 100 (0, 1)),
        fun _ _ => none⟩] = .ok [.retryExhausted] := by
  have h1 : loadBars (fun _ => FetchResult.ok (List.replicate 100 (0, 1)))
      (fun _ _ => none) = (.exhausted, 3) :=
    c6_retry_policy.2.1 _ _ (fun n => ⟨_, rfl, by simp⟩) (fun _ _ => rfl)
  have h2 : backtestSymbolE [] 100 390 0 390
      ⟨"A", 0, fun _ => FetchResult.ok (List.replicate 100 (0, 1)),
        fun _ _ => none⟩ = .ok .retryExhausted :=
    c6_retry_policy.2.2.2.1 [] 100 390 0 390 _ (by decide) h1
  exact ⟨h1, c6_retry_policy.2.2.1 _ _ 2 0 rfl,
    c6_retry_policy.2.2.2.2 [] 100 390 0 390 _ [] [] h2 rfl⟩

/-- Claim C8: a `next_minute` call with `now < end` advances the virtual
clock by exactly one minute — regardless of scanner or strategy activity —
and returns `more_work = true`; with `now` at session end it returns
`(false, [])` and leaves the clock and all per-symbol state unchanged. -/
theorem c8_advance (strats : List Strategy) (getHist : String → List (ℕ × ℚ))
    (s : DayState) :
    (s.now < s.endTime →
      (next_minute strats getHist s).1 = true ∧
      (next_minute strats getHist s).2.2.now = s.now + 1) ∧
    (¬ s.now < s.endTime → next_minute strats getHist s = (false, [], s)) := by
  constructor
  · intro h
    constructor <;> simp [next_minute, h]
  · intro h
    simp [next_minute, h]

/-- Witness for C8 on a concrete two-minute session. -/
theorem c8_advance_witness :
    (next_minute [] (fun _ => [])
      ⟨0, 2, 0, [], [], fun _ => [], ⟨fun _ => 0, fun _ => none, fun _ => none⟩,
       100, []⟩).1 = true ∧
    (next_minute [] (fun _ => [])
      ⟨0, 2, 0, [], [], fun _ => [], ⟨fun _ => 0, fun _ => none, fun _ => none⟩,
       100, []⟩).2.2.now = 0 + 1 ∧
    next_minute [] (fun _ => [])
      ⟨0, 2, 2, [], [], fun _ => [], ⟨fun _ => 0, fun _ => none, fun _ => none⟩,
       100, []⟩ =
      (false, [],
       ⟨0, 2, 2, [], [], fun _ => [], ⟨fun _ => 0, fun _ => none, fun _ => none⟩,
        100, []⟩) :=
  ⟨((c8_advance [] (fun _ => []) _).1 (by decide)).1,
   ((c8_advance [] (fun _ => []) _).1 (by decide)).2,
   (c8_advance [] (fun _ => []) _).2 (by decide)⟩

/-- Development note on the replay invariant check (backtester.py lines
254-257): at a loop state whose current bar timestamp differs from the
cursor, the replay loop raises — the abort is loud, not swallowed. -/
theorem replayLoop_mismatch_raises (strats : List Strategy) (pv : ℚ)
    (mc : ℕ) (symbol : String) (bars : List (ℕ × ℚ)) (idx now : ℕ)
    (s : BSState) (price : ℚ) (hg : now < mc) (hi : idx + 1 < bars.length)
    (hm : (bars.getD idx (0, 0)).1 ≠ now) :
    replayLoop strats pv mc symbol bars idx now s price = .error () := by
  unfold replayLoop
  rw [dif_pos ⟨hg, hi⟩, if_pos hm]

/-- Development note on the replay invariant check: when the cursor is read
from the indexed bar — which is how `backtest_symbol` always enters and
re-enters the loop (lines 245 and 329-330) — the mismatch never fires and
the replay returns normally, so the raise is unreachable in this driver. -/
theorem replayLoop_entered_consistently (strats : List Strategy) (pv : ℚ)
    (mc : ℕ) (symbol : String) (bars : List (ℕ × ℚ)) :
    ∀ (idx : ℕ) (s : BSState) (price : ℚ),
      ∃ out, replayLoop strats pv mc symbol bars idx
        ((bars.getD idx (0, 0)).1) s price = .ok out := by
  have key : ∀ (n idx : ℕ) (s : BSState) (price : ℚ), bars.length - idx ≤ n →
      ∃ out, replayLoop strats pv mc symbol bars idx
        ((bars.getD idx (0, 0)).1) s price = .ok out := by
    intro n
    induction n with
    | zero =>
      intro idx s price hle
      unfold replayLoop
      rw [dif_neg (fun hg => by omega)]
      exact ⟨_, rfl⟩
    | succ k ih =>
      intro idx s price hle
      unfold replayLoop
      by_cases hg : (bars.getD idx (0, 0)).1 < mc ∧ idx + 1 < bars.length
      · rw [dif_pos hg, if_neg (fun hm => hm rfl)]
        obtain ⟨out2, hout2⟩ := ih (idx + 1)
          (pipelineBS pv symbol ((bars.getD idx (0, 0)).1)
            ((bars.getD idx (0, 0)).2) (bars.take (idx + 1)) s strats).1
          ((bars.getD idx (0, 0)).2) (by omega)
        simp only [hout2]
        exact ⟨_, rfl⟩
      · rw [dif_neg hg]
        exact ⟨_, rfl⟩
  intro idx s price
  exact key (bars.length - idx) idx s price le_rfl

/-- The Boolean fold body of the code computes the per-row contribution of the claim. -/
theorem codeContribution_eq_spec (row : TradeRow) :
    row.price * (row.qty : ℚ) *
      (if row.operation == "sell" && decide (0 < row.qty) then 1 else -1) =
    specContribution row := by
  unfold specContribution
  by_cases h1 : row.operation = "sell" <;> by_cases h2 : (0 : ℤ) < row.qty <;>
    simp [h1, h2, Bool.and_eq_true, beq_iff_eq, decide_eq_true_eq]

/-- Folding the revenue accumulator equals the sum of per-row contributions. -/
theorem revenue_foldl_eq (l : List TradeRow) : ∀ a : ℚ,
    l.foldl
      (fun rc row =>
        rc + row.price * (row.qty : ℚ) *
          (if row.operation == "sell" && decide (0 < row.qty) then 1 else -1))
      a = a + (l.map specContribution).sum := by
  induction l with
  | nil => intro a; simp
  | cons x xs ih =>
    intro a
    rw [List.foldl_cons, ih, List.map_cons, List.sum_cons, codeContribution_eq_spec]
    ring

/-- Claim C10: `calc_batch_revenue` sums price·qty over the rows matching the
symbol and batch id with multiplier +1 exactly when the operation is "sell"
and the quantity is positive, and −1 in every other case — so a sell recorded
with negative quantity contributes +price·|qty| and a buy with positive
quantity contributes −price·qty — and the result is rounded to 2 decimal
places. -/
theorem c10_batch_revenue (symbol batch_id : String) (trades : List TradeRow) :
    calc_batch_revenue symbol trades batch_id =
      pyRound2
        (((trades.filter
            (fun r => r.symbol == symbol && r.batch_id == batch_id)).map
          specContribution).sum) ∧
    (∀ row : TradeRow,
      (row.operation = "sell" → row.qty < 0 →
        specContribution row = row.price * ((-row.qty : ℤ) : ℚ)) ∧
      (row.operation = "buy" → 0 < row.qty →
        specContribution row = -(row.price * (row.qty : ℚ)))) := by
  refine ⟨?_, fun row => ⟨fun h1 h2 => ?_, fun h1 h2 => ?_⟩⟩
  · unfold calc_batch_revenue
    rw [revenue_foldl_eq, zero_add]
  · unfold specContribution
    rw [if_neg (by rintro ⟨-, h⟩; omega)]
    push_cast
    ring
  · unfold specContribution
    rw [if_neg (by rintro ⟨h, -⟩; rw [h1] at h; exact absurd h (by decide))]
    ring

/-- Witness for C10 on a one-row table: a sell recorded with negative
quantity. -/
theorem c10_batch_revenue_witness :
    calc_batch_revenue "A" [⟨"A", "B", "sell", 10, -3⟩] "B" =
      pyRound2
        ((([(⟨"A", "B", "sell", 10, -3⟩ : TradeRow)].filter
            (fun r => r.symbol == "A" && r.batch_id == "B")).map
          specContribution).sum) ∧
    specContribution ⟨"A", "B", "sell", 10, -3⟩ =
      (10 : ℚ) * ((-(-3 : ℤ) : ℤ) : ℚ) :=
  ⟨(c10_batch_revenue "A" "B" [⟨"A", "B", "sell", 10, -3⟩]).1,
   ((c10_batch_revenue "A" "B" [⟨"A", "B", "sell", 10, -3⟩]).2
      ⟨"A", "B", "sell", 10, -3⟩).1 rfl (by decide)⟩

end LiuAlgo
